import Mathlib

/-!
Shallow embedding of the metacatalog core (entity relationship and
identity-resolution layer) for checking the natural-language specification
against the repository.

The repository sources available under src/ are the docs notebooks (recorded
program output of the CLI/API), the metadata field-description table, and the
SQL of the locations database view.  The Python model/api modules themselves
are not under src/, so the operations below that live in those modules are
modelled from the spec; each such definition says so in its doc comment.
Recorded program output in the notebooks is treated as authoritative code
evidence where it bears on a claim.
-/

/-- Error kinds of the core, as enumerated in spec section 7. -/
inductive MErr where
  | notFound (ident : String)
  | invalidArgument
  | missingRequiredField
  | incompleteScale
  | invalidHierarchy
  | corruptHierarchy
  | constraintViolation
deriving DecidableEq, Repr

/-- Calendar date (year, month, day), the granularity at which the spec and
the recorded notebook output state embargo and publication facts. -/
structure MDate where
  year : Nat
  month : Nat
  day : Nat
deriving DecidableEq, Repr

/-- Lexicographic strict order on calendar dates. -/
def MDate.before (a b : MDate) : Bool :=
  if a.year ≠ b.year then a.year < b.year
  else if a.month ≠ b.month then a.month < b.month
  else a.day < b.day

/-- Calendar-year arithmetic: the same day two years later (spec section 6:
the embargo default period is two years measured via calendar arithmetic). -/
def MDate.plusTwoYears (d : MDate) : MDate :=
  { d with year := d.year + 2 }

/-- Embargo-relevant state of an Entry: the flag, the publication timestamp
and the embargo end timestamp. -/
structure EmbargoState where
  embargo : Bool
  publication : MDate
  embargo_end : MDate
deriving DecidableEq, Repr

/-- Modelled from the spec: the embargo fields produced at Entry creation
(the Python model module is not under src/).  When no explicit embargo end is
supplied, it defaults to the publication timestamp plus two years. -/
def mkEmbargoState (embargo : Bool) (publication : MDate)
    (explicitEnd : Option MDate) : EmbargoState :=
  { embargo := embargo
    publication := publication
    embargo_end := explicitEnd.getD publication.plusTwoYears }

/-- Modelled from the spec: `is_embargoed(entry, at_time)` is true iff the
embargo flag is set and the queried time is before the embargo end. -/
def is_embargoed (e : EmbargoState) (at_time : MDate) : Bool :=
  e.embargo && at_time.before e.embargo_end

/-- A Keyword row: node of a controlled-vocabulary forest.  Fields follow
the JSON dump of a keyword printed by the uuid command in the docs
(id, uuid, value, parent reference, thesaurus reference). -/
structure Keyword where
  id : Nat
  uuid : String
  value : String
  parent_id : Option Nat
  thesaurus_id : Nat
deriving DecidableEq, Repr

/-- Look a keyword up by its numeric id (first row with that id). -/
def findKeyword (store : List Keyword) (kid : Nat) : Option Keyword :=
  store.find? (fun k => k.id == kid)

/-- Walk parent references from a node towards the root, collecting the
visited nodes (node first).  The fuel argument bounds the walk so the
function is total on arbitrary stores; on an acyclic store whose depths are
bounded by the fuel the walk reaches the root. -/
def ancestorsAux (store : List Keyword) : Nat → Keyword → List Keyword
  | 0, k => [k]
  | fuel + 1, k =>
    match k.parent_id with
    | none => [k]
    | some pid =>
      match findKeyword store pid with
      | none => [k]
      | some p => k :: ancestorsAux store fuel p

/-- Modelled from the spec: `full_path(node)` walks parent references from
the node to the root, then reverses, yielding the ancestor display values
root first (the Python keyword model module is not under src/). -/
def full_path (store : List Keyword) (k : Keyword) : List String :=
  ((ancestorsAux store store.length k).map Keyword.value).reverse

/-- Keyword path rendering: the full path joined with the literal separator,
as shown in the path field of the uuid command output. -/
def keywordPath (store : List Keyword) (k : Keyword) : String :=
  String.intercalate " > " (full_path store k)

/-- Direct children of a node: the rows whose parent reference is the node. -/
def childIds (store : List Keyword) (kid : Nat) : List Nat :=
  (store.filter (fun k => k.parent_id == some kid)).map Keyword.id

/-- One breadth-first step: all direct children of a frontier. -/
def frontierStep (store : List Keyword) (frontier : List Nat) : List Nat :=
  (frontier.map (childIds store)).flatten

/-- Breadth-first descendant traversal with a level budget.  On a store whose
depths are bounded the budget is never exhausted; exhausting it means a
parent-reference cycle was fed to the traversal. -/
def subtreeAux (store : List Keyword) : Nat → List Nat → Except MErr (List Nat)
  | 0, frontier =>
    if frontier.isEmpty then .ok [] else .error .corruptHierarchy
  | fuel + 1, frontier =>
    if frontier.isEmpty then .ok []
    else
      match subtreeAux store fuel (frontierStep store frontier) with
      | .ok rest => .ok (frontier ++ rest)
      | .error e => .error e

/-- Modelled from the spec: `subtree(node)` traverses all descendants
breadth-first and must terminate even under adversarial input, failing with
a CorruptHierarchy error when a cycle is detected (the Python keyword model
module is not under src/).  A level budget of one more than the store size
suffices for every acyclic store, so running out of budget detects a cycle. -/
def subtree (store : List Keyword) (kid : Nat) : Except MErr (List Nat) :=
  subtreeAux store (store.length + 1) (childIds store kid)

/-- Certificate that a keyword store is an acyclic forest: a depth function
bounded by the store size, zero exactly on roots and increasing by one from
parent to child, with every parent reference resolving in the store. -/
def forestCert (store : List Keyword) (d : Nat → Nat) : Bool :=
  store.all (fun k =>
    decide (d k.id ≤ store.length) &&
    match k.parent_id with
    | none => d k.id == 0
    | some pid =>
      match findKeyword store pid with
      | none => false
      | some p => d k.id == d p.id + 1)

lemma findKeyword_mem {store : List Keyword} {pid : Nat} {p : Keyword}
    (h : findKeyword store pid = some p) : p ∈ store ∧ p.id = pid := by
  refine ⟨List.mem_of_find?_eq_some h, ?_⟩
  have := List.find?_some h
  simpa using this

lemma forestCert_node {store : List Keyword} {d : Nat → Nat}
    (h : forestCert store d = true) {k : Keyword} (hk : k ∈ store) :
    d k.id ≤ store.length ∧
    (k.parent_id = none → d k.id = 0) ∧
    (∀ pid, k.parent_id = some pid →
      ∃ p, findKeyword store pid = some p ∧ p ∈ store ∧ p.id = pid ∧
        d k.id = d p.id + 1) := by
  have hb := (List.all_eq_true.mp h) k hk
  rw [Bool.and_eq_true] at hb
  obtain ⟨h1, h2⟩ := hb
  refine ⟨by simpa using h1, ?_, ?_⟩
  · intro hp
    rw [hp] at h2
    simpa using h2
  · intro pid hp
    rw [hp] at h2
    cases hfind : findKeyword store pid with
    | none =>
      simp only [hfind] at h2
      exact absurd h2 Bool.false_ne_true
    | some p =>
      simp only [hfind] at h2
      obtain ⟨hmem, hid⟩ := findKeyword_mem hfind
      exact ⟨p, rfl, hmem, hid, by simpa using h2⟩

lemma ancestorsAux_root {store : List Keyword} {k : Keyword}
    (hp : k.parent_id = none) (fuel : Nat) :
    ancestorsAux store fuel k = [k] := by
  cases fuel with
  | zero => rfl
  | succ f => simp [ancestorsAux, hp]

lemma ancestorsAux_congr {store : List Keyword} {d : Nat → Nat}
    (hcert : forestCert store d = true) :
    ∀ n, ∀ k ∈ store, d k.id ≤ n → ∀ f1 f2, d k.id ≤ f1 → d k.id ≤ f2 →
      ancestorsAux store f1 k = ancestorsAux store f2 k := by
  intro n
  induction n with
  | zero =>
    intro k hk hn f1 f2 _ _
    obtain ⟨_, _, hstep⟩ := forestCert_node hcert hk
    cases hp : k.parent_id with
    | none => rw [ancestorsAux_root hp, ancestorsAux_root hp]
    | some pid =>
      obtain ⟨p, _, _, _, hd⟩ := hstep pid hp
      omega
  | succ n ih =>
    intro k hk hn f1 f2 h1 h2
    obtain ⟨_, _, hstep⟩ := forestCert_node hcert hk
    cases hp : k.parent_id with
    | none => rw [ancestorsAux_root hp, ancestorsAux_root hp]
    | some pid =>
      obtain ⟨p, hfind, hpm, hpid, hd⟩ := hstep pid hp
      cases f1 with
      | zero => omega
      | succ g1 =>
        cases f2 with
        | zero => omega
        | succ g2 =>
          simp only [ancestorsAux, hp, hfind]
          have := ih p hpm (by omega) g1 g2 (by omega) (by omega)
          rw [this]

lemma ancestorsAux_length {store : List Keyword} {d : Nat → Nat}
    (hcert : forestCert store d = true) :
    ∀ n, ∀ k ∈ store, d k.id ≤ n → ∀ fuel, d k.id ≤ fuel →
      (ancestorsAux store fuel k).length = d k.id + 1 := by
  intro n
  induction n with
  | zero =>
    intro k hk hn fuel _
    obtain ⟨_, hroot, hstep⟩ := forestCert_node hcert hk
    cases hp : k.parent_id with
    | none => rw [ancestorsAux_root hp]; simp [hroot hp]
    | some pid =>
      obtain ⟨p, _, _, _, hd⟩ := hstep pid hp
      omega
  | succ n ih =>
    intro k hk hn fuel hf
    obtain ⟨_, hroot, hstep⟩ := forestCert_node hcert hk
    cases hp : k.parent_id with
    | none => rw [ancestorsAux_root hp]; simp [hroot hp]
    | some pid =>
      obtain ⟨p, hfind, hpm, hpid, hd⟩ := hstep pid hp
      cases fuel with
      | zero => omega
      | succ g =>
        simp only [ancestorsAux, hp, hfind, List.length_cons]
        have := ih p hpm (by omega) g (by omega)
        omega

lemma full_path_root {store : List Keyword} {k : Keyword}
    (hp : k.parent_id = none) : full_path store k = [k.value] := by
  unfold full_path
  rw [ancestorsAux_root hp]
  rfl

lemma full_path_parent {store : List Keyword} {d : Nat → Nat}
    (hcert : forestCert store d = true) {k p : Keyword} {pid : Nat}
    (hk : k ∈ store) (hp : k.parent_id = some pid)
    (hfind : findKeyword store pid = some p) :
    full_path store k = full_path store p ++ [k.value] := by
  obtain ⟨hbound, _, hstep⟩ := forestCert_node hcert hk
  obtain ⟨p2, hfind2, hpm, hpid, hd⟩ := hstep pid hp
  rw [hfind] at hfind2
  cases hfind2
  have hlen : 1 ≤ store.length := by
    cases store with
    | nil => cases hk
    | cons a t => simp
  obtain ⟨g, hg⟩ : ∃ g, store.length = g + 1 := ⟨store.length - 1, by omega⟩
  have hstep_eq : ancestorsAux store store.length k = k :: ancestorsAux store g p := by
    rw [hg]
    simp only [ancestorsAux, hp, hfind]
  have hcongr : ancestorsAux store g p = ancestorsAux store store.length p :=
    ancestorsAux_congr hcert (d p.id) p hpm le_rfl g store.length
      (by omega) (by omega)
  unfold full_path
  rw [hstep_eq, hcongr, List.map_cons, List.reverse_cons]

lemma full_path_length {store : List Keyword} {d : Nat → Nat}
    (hcert : forestCert store d = true) {k : Keyword} (hk : k ∈ store) :
    (full_path store k).length = d k.id + 1 := by
  obtain ⟨hbound, _, _⟩ := forestCert_node hcert hk
  unfold full_path
  rw [List.length_reverse, List.length_map]
  exact ancestorsAux_length hcert (d k.id) k hk le_rfl store.length hbound

lemma ancestorsAux_head {store : List Keyword} (fuel : Nat) (k : Keyword) :
    ∃ t, ancestorsAux store fuel k = k :: t := by
  cases fuel with
  | zero => exact ⟨[], rfl⟩
  | succ g =>
    cases hp : k.parent_id with
    | none => exact ⟨[], by simp [ancestorsAux, hp]⟩
    | some pid =>
      cases hfind : findKeyword store pid with
      | none => exact ⟨[], by simp [ancestorsAux, hp, hfind]⟩
      | some p =>
        exact ⟨ancestorsAux store g p, by simp [ancestorsAux, hp, hfind]⟩

lemma full_path_getLast {store : List Keyword} (k : Keyword) :
    (full_path store k).getLast? = some k.value := by
  obtain ⟨t, ht⟩ := @ancestorsAux_head store store.length k
  unfold full_path
  rw [ht, List.map_cons, List.getLast?_reverse]
  rfl

lemma childIds_mem {store : List Keyword} {kid x : Nat}
    (hx : x ∈ childIds store kid) :
    ∃ c, c ∈ store ∧ c.id = x ∧ c.parent_id = some kid := by
  unfold childIds at hx
  obtain ⟨c, hc, hcx⟩ := List.mem_map.mp hx
  obtain ⟨hcm, hcp⟩ := List.mem_filter.mp hc
  exact ⟨c, hcm, hcx, by simpa using hcp⟩

lemma subtreeAux_ok {store : List Keyword} {d : Nat → Nat}
    (hcert : forestCert store d = true) :
    ∀ fuel frontier,
      (∀ x ∈ frontier, ∃ k, k ∈ store ∧ k.id = x ∧
        store.length + 1 ≤ d k.id + fuel) →
      ∃ res, subtreeAux store fuel frontier = .ok res := by
  intro fuel
  induction fuel with
  | zero =>
    intro frontier hinv
    have hemp : frontier = [] := by
      cases frontier with
      | nil => rfl
      | cons x t =>
        obtain ⟨k, hkm, _, hkd⟩ := hinv x (by simp)
        obtain ⟨hb, _, _⟩ := forestCert_node hcert hkm
        omega
    subst hemp
    exact ⟨[], rfl⟩
  | succ fuel ih =>
    intro frontier hinv
    by_cases hne : frontier.isEmpty
    · exact ⟨[], by simp [subtreeAux, hne]⟩
    · have hinv2 : ∀ x ∈ frontierStep store frontier,
          ∃ k, k ∈ store ∧ k.id = x ∧ store.length + 1 ≤ d k.id + fuel := by
        intro x hx
        unfold frontierStep at hx
        obtain ⟨l, hl, hxl⟩ := List.mem_flatten.mp hx
        obtain ⟨y, hy, hly⟩ := List.mem_map.mp hl
        subst hly
        obtain ⟨c, hcm, hcx, hcp⟩ := childIds_mem hxl
        obtain ⟨ky, hkym, hkyx, hkyd⟩ := hinv y hy
        obtain ⟨_, _, hstep⟩ := forestCert_node hcert hcm
        obtain ⟨p, hfind, hpm, hpid, hd⟩ := hstep y hcp
        have hpd : d p.id = d ky.id := by rw [hpid, ← hkyx]
        exact ⟨c, hcm, hcx, by omega⟩
      obtain ⟨rest, hrest⟩ := ih (frontierStep store frontier) hinv2
      refine ⟨frontier ++ rest, ?_⟩
      simp only [subtreeAux, hne, hrest]
      simp

lemma subtree_ok {store : List Keyword} {d : Nat → Nat}
    (hcert : forestCert store d = true) (kid : Nat) :
    ∃ res, subtree store kid = .ok res := by
  apply subtreeAux_ok hcert
  intro x hx
  obtain ⟨c, hcm, hcx, _⟩ := childIds_mem hx
  exact ⟨c, hcm, hcx, by omega⟩

/-- The GCMD keyword chain recorded in the docs: the uuid command output
shows TERRESTRIAL HYDROSPHERE (id 25) and its child SURFACE WATER (id 214)
under the root EARTH SCIENCE, thesaurus 1.  The root's numeric id and uuid
are not recorded in the docs; id 1 stands in for them here. -/
def kwEarthScience : Keyword :=
  { id := 1, uuid := "", value := "EARTH SCIENCE", parent_id := none
    thesaurus_id := 1 }

/-- TERRESTRIAL HYDROSPHERE as dumped by the uuid command in the docs. -/
def kwTerrestrialHydrosphere : Keyword :=
  { id := 25, uuid := "885735f3-121e-4ca0-ac8b-f37dbc972f03"
    value := "TERRESTRIAL HYDROSPHERE", parent_id := some 1
    thesaurus_id := 1 }

/-- SURFACE WATER as dumped by the uuid command in the docs. -/
def kwSurfaceWater : Keyword :=
  { id := 214, uuid := "5debb283-51e4-435e-b2a2-e8e2a977220d"
    value := "SURFACE WATER", parent_id := some 25
    thesaurus_id := 1 }

/-- The three-level keyword chain of Scenario B. -/
def gcmdChain : List Keyword :=
  [kwEarthScience, kwTerrestrialHydrosphere, kwSurfaceWater]

/-- Depth function certifying that the chain is an acyclic forest. -/
def gcmdDepth : Nat → Nat :=
  fun i => if i == 1 then 0 else if i == 25 then 1 else 2

/-- A store whose parent references form a cycle (two nodes pointing at each
other), the adversarial corrupted-hierarchy input of claim C9. -/
def cycStore : List Keyword :=
  [ { id := 1, uuid := "", value := "A", parent_id := some 2, thesaurus_id := 1 }
  , { id := 2, uuid := "", value := "B", parent_id := some 1, thesaurus_id := 1 } ]

example : forestCert gcmdChain gcmdDepth = true := by decide
example : full_path gcmdChain kwSurfaceWater =
    ["EARTH SCIENCE", "TERRESTRIAL HYDROSPHERE", "SURFACE WATER"] := rfl
example : keywordPath gcmdChain kwSurfaceWater =
    "EARTH SCIENCE > TERRESTRIAL HYDROSPHERE > SURFACE WATER" := rfl
example : subtree cycStore 1 = Except.error MErr.corruptHierarchy := rfl
example : subtree gcmdChain 1 = Except.ok [25, 214] := rfl

/-- C4: in a well-formed (acyclic) vocabulary forest, full_path of a node is
the ancestor display values root first: it is [value] on a root, extends the
parent's full path by the node's value on a child, has length depth + 1 and
ends in the node's own value; rendering joins the values with the literal
separator " > ".  For the recorded three-level GCMD chain EARTH SCIENCE /
TERRESTRIAL HYDROSPHERE / SURFACE WATER, full_path of the leaf is exactly
["EARTH SCIENCE", "TERRESTRIAL HYDROSPHERE", "SURFACE WATER"]. -/
theorem full_path_spec (store : List Keyword) (d : Nat → Nat)
    (hcert : forestCert store d = true) (k : Keyword) (hk : k ∈ store) :
    ((k.parent_id = none → full_path store k = [k.value]) ∧
     (∀ pid p, k.parent_id = some pid → findKeyword store pid = some p →
        full_path store k = full_path store p ++ [k.value]) ∧
     (full_path store k).length = d k.id + 1 ∧
     (full_path store k).getLast? = some k.value) ∧
    full_path gcmdChain kwSurfaceWater =
      ["EARTH SCIENCE", "TERRESTRIAL HYDROSPHERE", "SURFACE WATER"] ∧
    keywordPath gcmdChain kwSurfaceWater =
      "EARTH SCIENCE > TERRESTRIAL HYDROSPHERE > SURFACE WATER" := by
  refine ⟨⟨?_, ?_, ?_, ?_⟩, rfl, rfl⟩
  · intro hp
    exact full_path_root hp
  · intro pid p hp hfind
    exact full_path_parent hcert hk hp hfind
  · exact full_path_length hcert hk
  · exact full_path_getLast k

/-- Witness for C4: the general part applied to the recorded GCMD chain at
the leaf SURFACE WATER. -/
theorem full_path_spec_witness :
    (full_path gcmdChain kwSurfaceWater).length =
      gcmdDepth kwSurfaceWater.id + 1 ∧
    full_path gcmdChain kwSurfaceWater =
      ["EARTH SCIENCE", "TERRESTRIAL HYDROSPHERE", "SURFACE WATER"] :=
  ⟨(full_path_spec gcmdChain gcmdDepth (by decide) kwSurfaceWater
      (by decide)).1.2.2.1,
   (full_path_spec gcmdChain gcmdDepth (by decide) kwSurfaceWater
      (by decide)).2.1⟩

/-- C9: on an acyclic vocabulary forest full_path and subtree terminate,
full_path returning a path of length depth + 1 and subtree returning a
result; on the adversarial input whose corrupted parent pointers form a
cycle, subtree fails with a CorruptHierarchy error instead of looping. -/
theorem subtree_termination (store : List Keyword) (d : Nat → Nat)
    (hcert : forestCert store d = true) (k : Keyword) (hk : k ∈ store) :
    ((full_path store k).length = d k.id + 1 ∧
     ∃ res, subtree store k.id = Except.ok res) ∧
    subtree cycStore 1 = Except.error MErr.corruptHierarchy := by
  exact ⟨⟨full_path_length hcert hk, subtree_ok hcert k.id⟩, rfl⟩

/-- Witness for C9: the termination part applied to the recorded GCMD chain,
together with the concrete cycle detection. -/
theorem subtree_termination_witness :
    ((full_path gcmdChain kwTerrestrialHydrosphere).length =
      gcmdDepth kwTerrestrialHydrosphere.id + 1 ∧
     ∃ res, subtree gcmdChain kwTerrestrialHydrosphere.id = Except.ok res) ∧
    subtree cycStore 1 = Except.error MErr.corruptHierarchy :=
  subtree_termination gcmdChain gcmdDepth (by decide)
    kwTerrestrialHydrosphere (by decide)

/-- C3: is_embargoed(e, t) is true iff the embargo flag is set and t is
before the embargo end; absent an explicit embargo end at creation it
defaults to the publication timestamp plus two years, so an Entry with
embargo = true and publication 2020-05-15 has embargo end 2022-05-15, is
embargoed at 2021-01-01 and is not embargoed at 2023-01-01. -/
theorem is_embargoed_spec :
    (∀ (e : EmbargoState) (t : MDate),
      is_embargoed e t = true ↔
        e.embargo = true ∧ t.before e.embargo_end = true) ∧
    (∀ (em : Bool) (pub : MDate),
      (mkEmbargoState em pub none).embargo_end = pub.plusTwoYears) ∧
    (mkEmbargoState true ⟨2020, 5, 15⟩ none).embargo_end = ⟨2022, 5, 15⟩ ∧
    is_embargoed (mkEmbargoState true ⟨2020, 5, 15⟩ none) ⟨2021, 1, 1⟩ =
      true ∧
    is_embargoed (mkEmbargoState true ⟨2020, 5, 15⟩ none) ⟨2023, 1, 1⟩ =
      false := by
  refine ⟨?_, ?_, rfl, by decide, by decide⟩
  · intro e t
    simp [is_embargoed]
  · intro em pub
    rfl

/-- An Entry row projected to its version-chain fields. -/
structure VRow where
  id : Nat
  version : Nat
  latest_version_id : Nat
deriving DecidableEq, Repr

/-- Modelled from the spec: creating an Entry opens a version chain with one
row of version 1 whose latest-version pointer is itself (spec section 4.4;
the Python entry model module is not under src/). -/
def createV1 (eid : Nat) : List VRow :=
  [{ id := eid, version := 1, latest_version_id := eid }]

/-- Highest version number present in a chain. -/
def maxVersion (chain : List VRow) : Nat :=
  chain.foldr (fun r acc => max r.version acc) 0

/-- Modelled from the spec: new_version appends a new row with the next
version number and re-points latest_version_id on all prior versions in the
chain to the new row, whose own pointer is itself. -/
def new_version (chain : List VRow) (newId : Nat) : List VRow :=
  (chain.map (fun r => { r with latest_version_id := newId })) ++
    [{ id := newId, version := maxVersion chain + 1
       latest_version_id := newId }]

/-- A row is current when its latest-version pointer is itself. -/
def isCurrent (r : VRow) : Bool :=
  r.latest_version_id == r.id

/-- Look a chain row up by its numeric id. -/
def findVRow (chain : List VRow) (rid : Nat) : Option VRow :=
  chain.find? (fun r => r.id == rid)

/-- C1: starting from an Entry created with version 1 and calling
new_version twice with fresh ids yields exactly three rows, every row's
latest_version_id equals the id of the version-3 row and the version-3
row's pointer is its own id; at every stage of the chain exactly one row is
current, and following latest_version_id from any row of the final chain
reaches that single current row. -/
theorem version_chain_spec (a b c : Nat)
    (hab : a ≠ b) (hac : a ≠ c) (hbc : b ≠ c) :
    new_version (new_version (createV1 a) b) c =
      [⟨a, 1, c⟩, ⟨b, 2, c⟩, ⟨c, 3, c⟩] ∧
    (∀ r ∈ new_version (new_version (createV1 a) b) c,
      r.latest_version_id = c) ∧
    (VRow.mk c 3 c).latest_version_id = (VRow.mk c 3 c).id ∧
    (createV1 a).countP isCurrent = 1 ∧
    (new_version (createV1 a) b).countP isCurrent = 1 ∧
    (new_version (new_version (createV1 a) b) c).countP isCurrent = 1 ∧
    (∀ r ∈ new_version (new_version (createV1 a) b) c,
      findVRow (new_version (new_version (createV1 a) b) c)
        r.latest_version_id = some ⟨c, 3, c⟩) := by
  have h3 : new_version (new_version (createV1 a) b) c =
      [⟨a, 1, c⟩, ⟨b, 2, c⟩, ⟨c, 3, c⟩] := rfl
  have hca : (c == a) = false := by simp [Ne.symm hac]
  have hcb : (c == b) = false := by simp [Ne.symm hbc]
  have hba : (b == a) = false := by simp [Ne.symm hab]
  have hacb : (a == c) = false := by simp [hac]
  have hbcb : (b == c) = false := by simp [hbc]
  refine ⟨h3, ?_, rfl, ?_, ?_, ?_, ?_⟩
  · rw [h3]
    intro r hr
    simp only [List.mem_cons, List.not_mem_nil, or_false] at hr
    rcases hr with h | h | h <;> simp [h]
  · simp [createV1, List.countP_cons, isCurrent]
  · simp [new_version, createV1, maxVersion, List.countP_cons, isCurrent,
      hba]
  · rw [h3]
    simp [List.countP_cons, isCurrent, hca, hcb]
  · rw [h3]
    intro r hr
    have hlat : r.latest_version_id = c := by
      simp only [List.mem_cons, List.not_mem_nil, or_false] at hr
      rcases hr with h | h | h <;> simp [h]
    rw [hlat]
    simp [findVRow, List.find?, hacb, hbcb]

/-- Witness for C1: the chain property at the concrete ids 1, 2, 3. -/
theorem version_chain_spec_witness :
    new_version (new_version (createV1 1) 2) 3 =
      [⟨1, 1, 3⟩, ⟨2, 2, 3⟩, ⟨3, 3, 3⟩] ∧
    (new_version (new_version (createV1 1) 2) 3).countP isCurrent = 1 :=
  ⟨(version_chain_spec 1 2 3 (by decide) (by decide) (by decide)).1,
   (version_chain_spec 1 2 3 (by decide) (by decide)
      (by decide)).2.2.2.2.2.1⟩

/-- Reference location: WGS84 point coordinates, modelled as rationals. -/
abbrev GeoPoint := ℚ × ℚ

/-- Input record for Entry creation with the required metadata fields of the
add workflow (absent fields are none). -/
structure CreateInput where
  author : Option Nat
  title : Option String
  abstract : Option String
  variable_ref : Option Nat
  license : Option Nat
  location : Option GeoPoint
  geom : Option String
deriving DecidableEq, Repr

/-- All required creation fields present: author, title, abstract, variable,
license, and a usable location or geometry. -/
def hasRequiredFields (inp : CreateInput) : Bool :=
  inp.author.isSome && inp.title.isSome && inp.abstract.isSome &&
  inp.variable_ref.isSome && inp.license.isSome &&
  (inp.location.isSome || inp.geom.isSome)

/-- The Entry fields fixed at creation time. -/
structure CreatedEntry where
  uuid : String
  author : Nat
  title : String
  abstract : String
  variable_ref : Nat
  license : Nat
  version : Nat
  latest_version_id : Option Nat
  publication : MDate
  lastUpdate : MDate
deriving DecidableEq, Repr

/-- Modelled from the spec and the recorded show-records output: Entry
creation validates the required fields and otherwise stores the fresh
system-assigned identifier, both timestamps at the creation instant and
version 1.  The entries dumped by the docs carry an empty latest_version_id
column on creation, so the pointer starts unset (None), the unset pointer
marking the row as its own latest version.  (The Python api module is not
under src/.) -/
def create (inp : CreateInput) (now : MDate) (freshUuid : String) :
    Except MErr CreatedEntry :=
  match inp.author, inp.title, inp.abstract, inp.variable_ref,
      inp.license with
  | some au, some ti, some ab, some va, some li =>
    if inp.location.isSome || inp.geom.isSome then
      .ok { uuid := freshUuid, author := au, title := ti, abstract := ab
            variable_ref := va, license := li, version := 1
            latest_version_id := none, publication := now, lastUpdate := now }
    else .error .missingRequiredField
  | _, _, _, _, _ => .error .missingRequiredField

/-- Timestamp with clock time down to microseconds, as printed by the
show-records table. -/
structure MDateTime where
  date : MDate
  hour : Nat
  minute : Nat
  second : Nat
  micro : Nat
deriving DecidableEq, Repr

/-- Row of the entries table as dumped in the add-command docs.  Blank
columns of the dump are none. -/
structure EntryDumpRow where
  id : Nat
  title : String
  version : Nat
  latest_version_id : Option Nat
  license_id : Nat
  variable_id : Nat
  datasource_id : Option Nat
  embargo : Bool
  embargo_end : MDateTime
  publication : MDateTime
  lastUpdate : MDateTime
deriving DecidableEq, Repr

/-- The Entry created in the add-command docs example and dumped right
afterwards with show records (id 20, title "Alfred data"): version 1, blank
latest_version_id column, embargo true. -/
def alfredDataRow : EntryDumpRow :=
  { id := 20, title := "Alfred data", version := 1
    latest_version_id := none, license_id := 2, variable_id := 15
    datasource_id := none, embargo := true
    embargo_end := ⟨⟨2022, 5, 22⟩, 5, 45, 24, 827462⟩
    publication := ⟨⟨2020, 5, 22⟩, 5, 45, 24, 827531⟩
    lastUpdate := ⟨⟨2020, 5, 22⟩, 5, 45, 24, 827539⟩ }

/-- C2 counterexample: the Entry created in the add-command docs has version
1 but its latest_version_id column is empty (None), not the id of the new
Entry itself, refuting the claim that creation points latest_version_id at
the created row. -/
theorem create_latest_version_counterexample :
    alfredDataRow.version = 1 ∧
    alfredDataRow.latest_version_id ≠ some alfredDataRow.id :=
  ⟨rfl, by decide⟩

/-- C2 (amended): create fails with MissingRequiredField exactly when
author, title, abstract, variable, license or a usable location/geometry is
absent; when all required fields are present it assigns the fresh global
identifier, sets both the publication and last-update timestamps to the
creation instant, sets version 1, and leaves latest_version_id unset, the
unset pointer denoting that the new Entry is its own latest version. -/
theorem create_spec (inp : CreateInput) (now : MDate) (freshUuid : String) :
    match create inp now freshUuid with
    | .error e => e = .missingRequiredField ∧ hasRequiredFields inp = false
    | .ok ent =>
        hasRequiredFields inp = true ∧
        ent.uuid = freshUuid ∧ ent.publication = now ∧ ent.lastUpdate = now ∧
        ent.version = 1 ∧ ent.latest_version_id = none := by
  rcases inp with ⟨au, ti, ab, va, li, lo, ge⟩
  cases au <;> cases ti <;> cases ab <;> cases va <;> cases li <;>
    cases lo <;> cases ge <;>
    simp [create, hasRequiredFields]

/-- Lowercase hexadecimal digit. -/
def isHexLowerDigit (c : Char) : Bool :=
  c.isDigit || (decide ('a' ≤ c) && decide (c ≤ 'f'))

/-- Canonical lowercase hyphenated version-4 UUID string: 36 characters,
hyphens at positions 8, 13, 18 and 23, the version nibble 4 at position 14,
the variant nibble in 8..b at position 19, lowercase hex elsewhere. -/
def isValidUuid4 (s : String) : Bool :=
  let cs := s.toList
  (cs.length == 36) &&
  (List.range 36).all (fun i =>
    let c := cs.getD i ' '
    if i == 8 || i == 13 || i == 18 || i == 23 then c == '-'
    else if i == 14 then c == '4'
    else if i == 19 then (c == '8' || c == '9' || c == 'a' || c == 'b')
    else isHexLowerDigit c)

/-- The entity kinds carrying a global identifier, the searchable models
listed in the uuid command docs: Entry, EntryGroup, Keyword. -/
inductive EntityKind where
  | entry
  | entryGroup
  | keyword
deriving DecidableEq, Repr

/-- The identifier tables of the registry, one per entity kind, mapping a
uuid string to the owning record's numeric id. -/
structure Registry where
  entries : List (String × Nat)
  groups : List (String × Nat)
  keywords : List (String × Nat)
deriving DecidableEq, Repr

/-- First match of an identifier in one kind's table. -/
def lookupUuid (table : List (String × Nat)) (ident : String) : Option Nat :=
  (table.find? (fun p => p.1 == ident)).map Prod.snd

/-- Modelled from the spec: api.get_uuid resolves a global identifier by
probing the kinds Entry, EntryGroup, Keyword in a fixed order with a
short-circuit at the first match, failing with InvalidArgument on a
malformed identifier before any lookup and with NotFound carrying the
searched identifier when no kind owns it (the Python api module is not
under src/). -/
def resolve (reg : Registry) (ident : String) :
    Except MErr (EntityKind × Nat) :=
  if isValidUuid4 ident then
    match lookupUuid reg.entries ident with
    | some e => .ok (.entry, e)
    | none =>
      match lookupUuid reg.groups ident with
      | some g => .ok (.entryGroup, g)
      | none =>
        match lookupUuid reg.keywords ident with
        | some k => .ok (.keyword, k)
        | none => .error (.notFound ident)
  else .error .invalidArgument

/-- Registry holding one record per kind; the keyword row is the
TERRESTRIAL HYDROSPHERE record of the uuid command docs, the other two
identifiers are synthetic but well-formed. -/
def sampleRegistry : Registry :=
  { entries := [("11111111-1111-4111-8111-111111111111", 20)]
    groups := [("22222222-2222-4222-8222-222222222222", 5)]
    keywords := [("885735f3-121e-4ca0-ac8b-f37dbc972f03", 25)] }

example : isValidUuid4 "885735f3-121e-4ca0-ac8b-f37dbc972f03" = true := by
  decide
example : isValidUuid4 "zzz" = false := by decide
example : resolve sampleRegistry "885735f3-121e-4ca0-ac8b-f37dbc972f03" =
    .ok (.keyword, 25) := rfl

/-- C5: resolve probes exactly the kinds Entry, EntryGroup and Keyword and
returns the owning record with its kind; a malformed identifier fails with
InvalidArgument for every registry (so before any lookup), and a well-formed
identifier owned by no kind fails with NotFound carrying the searched
identifier.  Concretely, the recorded keyword identifier resolves to the
Keyword kind, a malformed identifier is rejected, and an absent well-formed
identifier reports NotFound with itself. -/
theorem resolve_spec (reg : Registry) (ident : String) :
    (resolve reg ident = .error .invalidArgument ↔
      isValidUuid4 ident = false) ∧
    (resolve reg ident = .error (.notFound ident) ↔
      isValidUuid4 ident = true ∧ lookupUuid reg.entries ident = none ∧
      lookupUuid reg.groups ident = none ∧
      lookupUuid reg.keywords ident = none) ∧
    (match resolve reg ident with
     | .ok (kind, rid) =>
        (kind = .entry ∧ lookupUuid reg.entries ident = some rid) ∨
        (kind = .entryGroup ∧ lookupUuid reg.entries ident = none ∧
          lookupUuid reg.groups ident = some rid) ∨
        (kind = .keyword ∧ lookupUuid reg.entries ident = none ∧
          lookupUuid reg.groups ident = none ∧
          lookupUuid reg.keywords ident = some rid)
     | .error e => e = .invalidArgument ∨ e = .notFound ident) ∧
    resolve sampleRegistry "885735f3-121e-4ca0-ac8b-f37dbc972f03" =
      .ok (.keyword, 25) ∧
    resolve sampleRegistry "not-a-uuid" = .error .invalidArgument ∧
    resolve sampleRegistry "00000000-0000-4000-8000-000000000000" =
      .error (.notFound "00000000-0000-4000-8000-000000000000") := by
  refine ⟨?_, ?_, ?_, rfl, rfl, rfl⟩ <;>
  · by_cases hv : isValidUuid4 ident <;>
      cases he : lookupUuid reg.entries ident <;>
      cases hg : lookupUuid reg.groups ident <;>
      cases hk : lookupUuid reg.keywords ident <;>
      simp [resolve, hv, he, hg, hk]

/-- A scale triplet: resolution, extent and support for one dimension.
Resolution and extent magnitudes and the support ratio are modelled as
rationals. -/
structure ScaleTriplet where
  resolution : ℚ
  extent : ℚ × ℚ
  support : ℚ
deriving DecidableEq, Repr

/-- Modelled from the spec: scale-triplet construction accepts either all
three components or none; the support component defaults to 1 when
resolution and extent are given, must lie in (0, 1], and an out-of-range
support fails with InvalidArgument while a partial triplet fails with
IncompleteScale (the Python datasource model module is not under src/). -/
def mkScale (resolution : Option ℚ) (extent : Option (ℚ × ℚ))
    (support : Option ℚ) : Except MErr (Option ScaleTriplet) :=
  match resolution, extent, support with
  | none, none, none => .ok none
  | some r, some e, sup =>
    let s := sup.getD 1
    if 0 < s ∧ s ≤ 1 then .ok (some ⟨r, e, s⟩)
    else .error .invalidArgument
  | _, _, _ => .error .incompleteScale

/-- C6: scale-triplet construction succeeds exactly when all of resolution,
extent and support are provided or none is, with support defaulting to 1;
partial construction fails with IncompleteScale and a support outside
(0, 1] fails with InvalidArgument — support 1 is valid while support 0 and
support 1.0001 both fail with InvalidArgument. -/
theorem mkScale_spec (r : ℚ) (e : ℚ × ℚ) (s : ℚ) :
    mkScale none none none = .ok none ∧
    (mkScale (some r) (some e) (some s) =
      if 0 < s ∧ s ≤ 1 then .ok (some ⟨r, e, s⟩)
      else .error .invalidArgument) ∧
    mkScale (some r) (some e) none = .ok (some ⟨r, e, 1⟩) ∧
    mkScale (some r) none none = .error .incompleteScale ∧
    mkScale none (some e) none = .error .incompleteScale ∧
    mkScale none none (some s) = .error .incompleteScale ∧
    mkScale (some r) none (some s) = .error .incompleteScale ∧
    mkScale none (some e) (some s) = .error .incompleteScale ∧
    mkScale (some 1) (some (0, 1)) (some 1) = .ok (some ⟨1, (0, 1), 1⟩) ∧
    mkScale (some 1) (some (0, 1)) (some 0) = .error .invalidArgument ∧
    mkScale (some 1) (some (0, 1)) (some (10001 / 10000 : ℚ)) =
      .error .invalidArgument := by
  refine ⟨rfl, ?_, ?_, rfl, rfl, rfl, rfl, rfl, ?_, ?_, ?_⟩
  · by_cases hs : 0 < s ∧ s ≤ 1 <;> simp [mkScale, hs]
  · have h1 : (0 : ℚ) < 1 ∧ (1 : ℚ) ≤ 1 := by norm_num
    simp [mkScale, h1]
  · have h1 : (0 : ℚ) < 1 ∧ (1 : ℚ) ≤ 1 := by norm_num
    simp [mkScale, h1]
  · have h0 : ¬((0 : ℚ) < 0 ∧ (0 : ℚ) ≤ 1) := by norm_num
    simp [mkScale, h0]
  · have hbig : ¬((0 : ℚ) < 10001 / 10000 ∧ (10001 / 10000 : ℚ) ≤ 1) := by
      norm_num
    simp only [mkScale, Option.getD_some, if_neg hbig]

/-- The built-in entry-group types (the storage layer can add caller-defined
types; the four below are the ones whose semantics the spec fixes). -/
inductive GroupType where
  | split
  | composite
  | label
  | project
deriving DecidableEq, Repr

/-- An EntryGroup row: numeric id, group type and the membership set,
members being Entry ids. -/
structure EntryGroup where
  id : Nat
  gtype : GroupType
  members : List Nat
deriving DecidableEq, Repr

/-- Modelled from the spec: export fan-out of a group around one member.
Composite and Split groups bundle the full membership, Label and Project
groups carry only the entry itself (the Python models are not under
src/). -/
def export_set (g : EntryGroup) (e : Nat) : List Nat :=
  match g.gtype with
  | .composite => g.members
  | .split => g.members
  | .label => [e]
  | .project => [e]

/-- C7: for a Composite or Split group export_set returns the full
membership set, and for a Label or Project group it returns exactly the
singleton of the given entry; Scenario D: a Composite group with members
E1, E2 exports both around E1 while a Label group with the same members
exports only E1. -/
theorem export_set_spec (g : EntryGroup) (e : Nat) :
    ((g.gtype = .composite ∨ g.gtype = .split) →
      export_set g e = g.members) ∧
    ((g.gtype = .label ∨ g.gtype = .project) → export_set g e = [e]) ∧
    export_set ⟨1, .composite, [101, 102]⟩ 101 = [101, 102] ∧
    export_set ⟨2, .label, [101, 102]⟩ 101 = [101] := by
  refine ⟨?_, ?_, rfl, rfl⟩
  · rintro (h | h) <;> simp [export_set, h]
  · rintro (h | h) <;> simp [export_set, h]

/-- Witness for C7: the fan-out rules applied to the Scenario D groups. -/
theorem export_set_spec_witness :
    export_set ⟨1, GroupType.composite, [101, 102]⟩ 101 = [101, 102] ∧
    export_set ⟨2, GroupType.label, [101, 102]⟩ 101 = [101] :=
  ⟨(export_set_spec ⟨1, .composite, [101, 102]⟩ 101).1 (Or.inl rfl),
   (export_set_spec ⟨2, .label, [101, 102]⟩ 101).2.1 (Or.inl rfl)⟩

/-- The group table of a catalog. -/
abbrev Catalog := List EntryGroup

/-- True when some other Split-type group already holds the entry. -/
def inOtherSplit (st : Catalog) (gid e : Nat) : Bool :=
  st.any (fun h =>
    (h.gtype == GroupType.split) && (h.id != gid) && decide (e ∈ h.members))

/-- Append the entry to the members of the first group with the given id. -/
def addToGroup (st : Catalog) (gid e : Nat) : Catalog :=
  match st with
  | [] => []
  | g :: rest =>
    if g.id == gid then { g with members := g.members ++ [e] } :: rest
    else g :: addToGroup rest gid e

/-- Modelled from the spec: add_member(group, entry) fails with
ConstraintViolation when the group is Split-typed and the entry already
belongs to another Split-type group, and otherwise appends the entry to the
group's membership (the Python models are not under src/). -/
def add_member (st : Catalog) (gid e : Nat) : Except MErr Catalog :=
  match st.find? (fun g => g.id == gid) with
  | none => .error (.notFound (toString gid))
  | some g =>
    if (g.gtype == GroupType.split) && inOtherSplit st gid e then
      .error .constraintViolation
    else .ok (addToGroup st gid e)

/-- Transactional runner: a failing add_member leaves the catalog as it
was. -/
def tryAddMember (st : Catalog) (gid e : Nat) : Catalog :=
  match add_member st gid e with
  | .ok st2 => st2
  | .error _ => st

/-- Number of Split-type groups of the catalog containing the entry. -/
def splitCount (st : Catalog) (e : Nat) : Nat :=
  st.countP (fun g => (g.gtype == GroupType.split) && decide (e ∈ g.members))

/-- Every entry belongs to at most one Split-type group. -/
def atMostOneSplit (st : Catalog) : Prop :=
  ∀ e, splitCount st e ≤ 1

/-- The group ids of the catalog are pairwise distinct (database primary
keys). -/
def idsNodup (st : Catalog) : Prop :=
  (st.map EntryGroup.id).Nodup

/-- Scenario C catalog: the Split groups G1 (holding entry 10) and G2. -/
def scenarioSplitCatalog : Catalog :=
  [ { id := 1, gtype := GroupType.split, members := [10] }
  , { id := 2, gtype := GroupType.split, members := [] } ]

example : add_member scenarioSplitCatalog 2 10 =
    Except.error MErr.constraintViolation := rfl
example : tryAddMember scenarioSplitCatalog 2 10 = scenarioSplitCatalog :=
  rfl

lemma splitCount_addToGroup_ne {st : Catalog} {gid e x : Nat} (hxe : x ≠ e) :
    splitCount (addToGroup st gid e) x = splitCount st x := by
  induction st with
  | nil => rfl
  | cons g rest ih =>
    unfold addToGroup
    by_cases hg : g.id == gid
    · simp only [hg, if_true]
      simp [splitCount, List.countP_cons, List.mem_append, hxe]
    · simp only [hg, if_false, Bool.false_eq_true]
      simp only [splitCount, List.countP_cons] at ih ⊢
      rw [ih]

lemma splitCount_eq_zero {st : Catalog} {e : Nat}
    (h : ∀ g ∈ st, (g.gtype == GroupType.split) = false ∨ e ∉ g.members) :
    splitCount st e = 0 := by
  unfold splitCount
  rw [List.countP_eq_zero]
  intro g hg
  rcases h g hg with hc | hc <;> simp [hc]

lemma inOtherSplit_false_forall {st : Catalog} {gid e : Nat}
    (h : inOtherSplit st gid e = false) :
    ∀ g ∈ st, g.id ≠ gid →
      (g.gtype == GroupType.split) = false ∨ e ∉ g.members := by
  intro g hg hgid
  unfold inOtherSplit at h
  rw [List.any_eq_false] at h
  have hfg := h g hg
  by_cases hsp : (g.gtype == GroupType.split) = true
  · right
    intro hmem
    exact hfg (by simp [hsp, hgid, hmem])
  · left
    simpa using hsp

lemma splitCount_addToGroup_le {st : Catalog} {gid e : Nat}
    (hfound : ∃ g ∈ st, g.id = gid)
    (hother : inOtherSplit st gid e = false)
    (hnd : (st.map EntryGroup.id).Nodup) :
    splitCount (addToGroup st gid e) e ≤ 1 := by
  induction st with
  | nil => simp [addToGroup, splitCount]
  | cons g rest ih =>
    have hother_rest : inOtherSplit rest gid e = false := by
      unfold inOtherSplit at hother ⊢
      rw [List.any_eq_false] at hother ⊢
      intro h hh
      exact hother h (List.mem_cons_of_mem g hh)
    rw [List.map_cons, List.nodup_cons] at hnd
    unfold addToGroup
    by_cases hg : g.id == gid
    · simp only [hg, if_true]
      have hgid : g.id = gid := by simpa using hg
      have hrest0 : splitCount rest e = 0 := by
        apply splitCount_eq_zero
        intro h hh
        have hhid : h.id ≠ gid := by
          intro hcontra
          exact hnd.1
            (List.mem_map.mpr ⟨h, hh, hcontra.trans hgid.symm⟩)
        exact inOtherSplit_false_forall hother_rest h hh hhid
      simp only [splitCount, List.countP_cons] at hrest0 ⊢
      rw [hrest0]
      split <;> simp
    · simp only [hg, if_false, Bool.false_eq_true]
      have hgid : g.id ≠ gid := by simpa using hg
      have hfound_rest : ∃ h ∈ rest, h.id = gid := by
        rcases hfound with ⟨h, hh, hhid⟩
        rcases List.mem_cons.mp hh with rfl | hh2
        · exact absurd hhid hgid
        · exact ⟨h, hh2, hhid⟩
      have hpred : ((g.gtype == GroupType.split) &&
          decide (e ∈ g.members)) = false := by
        rcases inOtherSplit_false_forall hother g (List.mem_cons_self g rest)
            hgid with hc | hc <;> simp [hc]
      simp only [splitCount, List.countP_cons, hpred, if_false]
      have := ih hfound_rest hother_rest hnd.2
      simpa [splitCount] using this

lemma splitCount_addToGroup_notsplit {st : Catalog} {gid e : Nat}
    {g : EntryGroup}
    (hfind : st.find? (fun h => h.id == gid) = some g)
    (hsp : (g.gtype == GroupType.split) = false) :
    splitCount (addToGroup st gid e) e = splitCount st e := by
  induction st with
  | nil => simp [List.find?] at hfind
  | cons h rest ih =>
    unfold addToGroup
    by_cases hh : h.id == gid
    · have hgh : g = h := by
        simp [List.find?, hh] at hfind
        exact hfind.symm
      subst hgh
      simp only [hh, if_true]
      simp [splitCount, List.countP_cons, hsp]
    · have hfind_rest : rest.find? (fun h2 => h2.id == gid) = some g := by
        simpa [List.find?, hh] using hfind
      simp only [hh, if_false, Bool.false_eq_true]
      simp only [splitCount, List.countP_cons]
      rw [show (addToGroup rest gid e).countP
          (fun g2 => (g2.gtype == GroupType.split) && decide (e ∈ g2.members))
          = splitCount (addToGroup rest gid e) e from rfl]
      rw [ih hfind_rest]
      rfl

lemma add_member_preserves {st st2 : Catalog} {gid e : Nat}
    (hnd : idsNodup st) (hinv : atMostOneSplit st)
    (hok : add_member st gid e = .ok st2) : atMostOneSplit st2 := by
  unfold add_member at hok
  cases hfind : st.find? (fun g => g.id == gid) with
  | none =>
    rw [hfind] at hok
    exact absurd hok (by simp)
  | some g =>
    rw [hfind] at hok
    have hok2 : (if ((g.gtype == GroupType.split) && inOtherSplit st gid e)
        = true then (Except.error MErr.constraintViolation : Except MErr
          Catalog)
        else .ok (addToGroup st gid e)) = .ok st2 := hok
    clear hok
    by_cases hcond : ((g.gtype == GroupType.split) && inOtherSplit st gid e)
        = true
    · rw [if_pos hcond] at hok2
      exact absurd hok2 (by simp)
    · rw [if_neg hcond] at hok2
      simp only [Except.ok.injEq] at hok2
      subst hok2
      intro x
      by_cases hxe : x = e
      · rw [hxe]
        by_cases hsp : (g.gtype == GroupType.split) = true
        · have hother : inOtherSplit st gid e = false := by
            cases ho : inOtherSplit st gid e with
            | false => rfl
            | true => exact absurd (by simp [hsp, ho]) hcond
          have hfound : ∃ h ∈ st, h.id = gid :=
            ⟨g, List.mem_of_find?_eq_some hfind,
              by simpa using List.find?_some hfind⟩
          exact splitCount_addToGroup_le hfound hother hnd
        · have hsp2 : (g.gtype == GroupType.split) = false := by
            simpa using hsp
          rw [splitCount_addToGroup_notsplit hfind hsp2]
          exact hinv e
      · rw [splitCount_addToGroup_ne hxe]
        exact hinv x

/-- C8: add_member preserves the invariant that every Entry belongs to at
most one Split-type group (assuming distinct group ids); in Scenario C,
after entry 10 is a member of Split group G1, adding it to Split group G2
fails with ConstraintViolation, and a failing add_member always leaves the
group memberships unchanged. -/
theorem split_membership_spec (st st2 : Catalog) (gid e : Nat)
    (hnd : idsNodup st) (hinv : atMostOneSplit st)
    (hok : add_member st gid e = Except.ok st2) :
    atMostOneSplit st2 ∧
    add_member scenarioSplitCatalog 2 10 =
      Except.error MErr.constraintViolation ∧
    tryAddMember scenarioSplitCatalog 2 10 = scenarioSplitCatalog ∧
    (∀ (st3 : Catalog) (gid2 e2 : Nat),
      (∃ err, add_member st3 gid2 e2 = Except.error err) →
      tryAddMember st3 gid2 e2 = st3) := by
  refine ⟨add_member_preserves hnd hinv hok, rfl, rfl, ?_⟩
  intro st3 gid2 e2 ⟨err, herr⟩
  unfold tryAddMember
  rw [herr]

/-- Witness for C8: adding entry 10 to the empty Split group 1 of a
two-group catalog succeeds and keeps the at-most-one-Split invariant. -/
theorem split_membership_spec_witness :
    atMostOneSplit
      [ { id := 1, gtype := GroupType.split, members := [10] }
      , { id := 2, gtype := GroupType.split, members := [] } ] ∧
    add_member scenarioSplitCatalog 2 10 =
      Except.error MErr.constraintViolation :=
  have h := split_membership_spec
    [ { id := 1, gtype := GroupType.split, members := [] }
    , { id := 2, gtype := GroupType.split, members := [] } ]
    [ { id := 1, gtype := GroupType.split, members := [10] }
    , { id := 2, gtype := GroupType.split, members := [] } ]
    1 10 (by unfold idsNodup; decide)
    (by intro x; simp [splitCount, List.countP_cons]) rfl
  ⟨h.1, h.2.1⟩

/-- An entries-table row as the locations view reads it: id, reference
location, geometry collection and datasource reference.  Geometry values
are an abstract type G. -/
structure LEntry (G : Type) where
  id : Nat
  location : Option G
  geom : Option G
  datasource_id : Option Nat
deriving DecidableEq, Repr

/-- A datasources-table row as the locations view reads it. -/
structure LDataSource where
  id : Nat
  spatial_scale_id : Option Nat
deriving DecidableEq, Repr

/-- A spatial_scales-table row as the locations view reads it. -/
structure LSpatialScale (G : Type) where
  id : Nat
  extent : Option G
deriving DecidableEq, Repr

/-- A row of the locations view. -/
structure LocRow (G : Type) where
  id : Nat
  point_location : Option G
  geom : Option G
deriving DecidableEq, Repr

/-- The spatial-scale extent joined to an entry through the view's LEFT
JOINs (entries.datasource_id to datasources, datasources.spatial_scale_id
to spatial_scales); none models a null produced by a failed join. -/
def joinedExtent {G : Type} (dss : List LDataSource)
    (sss : List (LSpatialScale G)) (e : LEntry G) : Option G :=
  match e.datasource_id with
  | none => none
  | some did =>
    match dss.find? (fun d => d.id == did) with
    | none => none
    | some d =>
      match d.spatial_scale_id with
      | none => none
      | some sid =>
        match sss.find? (fun s2 => s2.id == sid) with
        | none => none
        | some s2 => s2.extent

/-- One row of the locations view, from the CASE expressions of
src/metacatalog/db/views/locations.sql: point_location is the entry's
location when non-null, else the centroid of the spatial-scale extent when
non-null, else the centroid of the entry's geometry collection when
non-null, else null; geom is the entry's geometry collection when non-null,
else the spatial-scale extent when non-null, else the entry's location.
st_centroid is the abstract centroid function. -/
def locRowOf {G : Type} (centroid : G → G) (dss : List LDataSource)
    (sss : List (LSpatialScale G)) (e : LEntry G) : LocRow G :=
  { id := e.id
    point_location :=
      match e.location with
      | some l => some l
      | none =>
        match joinedExtent dss sss e with
        | some x => some (centroid x)
        | none =>
          match e.geom with
          | some g => some (centroid g)
          | none => none
    geom :=
      match e.geom with
      | some g => some g
      | none =>
        match joinedExtent dss sss e with
        | some x => some x
        | none => e.location }

/-- Ordering of entry rows by ascending id, the ORDER BY of the view. -/
def leById {G : Type} : LEntry G → LEntry G → Prop :=
  fun a b => a.id ≤ b.id

instance {G : Type} : DecidableRel (@leById G) :=
  fun a b => Nat.decLe a.id b.id

instance {G : Type} : IsTotal (LEntry G) leById :=
  ⟨fun a b => Nat.le_total a.id b.id⟩

instance {G : Type} : IsTrans (LEntry G) leById :=
  ⟨fun _ _ _ hab hbc => Nat.le_trans hab hbc⟩

/-- The locations view of src/metacatalog/db/views/locations.sql: one row
per entries row, ordered by ascending entry id. -/
def locationsView {G : Type} (centroid : G → G) (entries : List (LEntry G))
    (dss : List LDataSource) (sss : List (LSpatialScale G)) : List (LocRow G) :=
  (List.insertionSort leById entries).map (locRowOf centroid dss sss)

/-- point_location as claim C10 words it: the Entry's stored location when
non-null, otherwise the centroid of the spatial-scale extent when non-null,
otherwise null. -/
def claimPointLocation {G : Type} (centroid : G → G) (ext : Option G)
    (e : LEntry G) : Option G :=
  match e.location with
  | some l => some l
  | none =>
    match ext with
    | some x => some (centroid x)
    | none => none

/-- geom as claim C10 words it: the spatial-scale extent when non-null,
falling back to the Entry's location otherwise. -/
def claimGeom {G : Type} (ext : Option G) (e : LEntry G) : Option G :=
  match ext with
  | some x => some x
  | none => e.location

example : locationsView (fun g : Nat => g + 1000)
    [{ id := 7, location := none, geom := some 5, datasource_id := none }]
    [] [] =
    [{ id := 7, point_location := some 1005, geom := some 5 }] := rfl

/-- C10 counterexample: for an entry whose location is null, with no
datasource (so the spatial-scale extent is null) and a non-null geometry
collection, the view computes point_location as the centroid of the
geometry collection and geom as the geometry collection itself, while the
claim's formulas give null for both. -/
theorem locations_view_counterexample :
    locationsView (fun g : Nat => g + 1000)
      [{ id := 7, location := none, geom := some 5, datasource_id := none }]
      [] [] =
      [{ id := 7, point_location := some 1005, geom := some 5 }] ∧
    claimPointLocation (fun g : Nat => g + 1000)
      (joinedExtent [] []
        { id := 7, location := none, geom := some 5, datasource_id := none })
      { id := 7, location := none, geom := some 5, datasource_id := none } =
      none ∧
    claimGeom
      (joinedExtent [] []
        ({ id := 7, location := none, geom := some 5, datasource_id := none }
          : LEntry Nat))
      { id := 7, location := none, geom := some 5, datasource_id := none } =
      none ∧
    (some 1005 ≠ (none : Option Nat)) ∧ (some 5 ≠ (none : Option Nat)) := by
  refine ⟨rfl, rfl, rfl, by decide, by decide⟩

/-- point_location as the counterexample forces the claim to be amended:
the Entry's stored location when non-null, otherwise the centroid of the
spatial-scale extent when non-null, otherwise the centroid of the Entry's
geometry collection when non-null, otherwise null. -/
def amendedPointLocation {G : Type} (centroid : G → G) (ext : Option G)
    (e : LEntry G) : Option G :=
  match e.location with
  | some l => some l
  | none =>
    match ext with
    | some x => some (centroid x)
    | none =>
      match e.geom with
      | some g => some (centroid g)
      | none => none

/-- geom as the counterexample forces the claim to be amended: the Entry's
geometry collection when non-null, otherwise the spatial-scale extent when
non-null, otherwise the Entry's location. -/
def amendedGeom {G : Type} (ext : Option G) (e : LEntry G) : Option G :=
  match e.geom with
  | some g => some g
  | none =>
    match ext with
    | some x => some x
    | none => e.location

/-- C10 (amended): every row of the locations view carries the entry's id,
the amended point_location (location, then centroid of the spatial-scale
extent, then centroid of the geometry collection, then null) and the
amended geom (geometry collection, then spatial-scale extent, then
location); the view holds exactly one row per entries row and its rows are
ordered by ascending entry id. -/
theorem locations_view_spec {G : Type} (centroid : G → G)
    (entries : List (LEntry G)) (dss : List LDataSource)
    (sss : List (LSpatialScale G)) :
    List.Sorted (· ≤ ·)
      ((locationsView centroid entries dss sss).map LocRow.id) ∧
    (locationsView centroid entries dss sss).Perm
      (entries.map (locRowOf centroid dss sss)) ∧
    (∀ e : LEntry G, locRowOf centroid dss sss e =
      { id := e.id
        point_location :=
          amendedPointLocation centroid (joinedExtent dss sss e) e
        geom := amendedGeom (joinedExtent dss sss e) e }) := by
  refine ⟨?_, ?_, ?_⟩
  · unfold locationsView
    rw [List.map_map]
    have hs := List.sorted_insertionSort leById entries
    exact List.pairwise_map.mpr (hs.imp (fun h => h))
  · exact (List.perm_insertionSort leById entries).map _
  · intro e
    rfl
